import Mathlib

/-!
# Verification of the `wardstats` ETL pipeline

Shallow embedding of the `wardstats` package (an ETL pipeline for NHS
Virtual Ward statistics) and proofs about it.  Each Python function that a
claim touches is translated into an executable Lean definition:

* `index_header_row`       — `ExcelFileProcessor._index_header_row`
* `rename_columns`         — `ExcelFileProcessor.rename_columns`
* `drop_rows_with_invalid_icb_code`
                           — `ExcelFileProcessor.drop_rows_with_invalid_icb_code`
* `handle_occupancy_suppressions`
                           — `ExcelFileProcessor.handle_occupancy_suppressions`
* `process_file`           — `transform_data.process_file`
* `extract_date_from_text` — `VirtualWardsStatsDownloader.extract_date_from_text`
* `generate_raw_filename`  — `utils.generate_raw_filename`
* `combine_staging_files`  — `combine_data.main`
* `filter_date`            — `utils.filter_date`

Pandas dataframes are modelled as lists of rows; error-raising Python code
returns `Except PyErr`.  Python string primitives are modelled by
structurally recursive functions on the character list of a `String`
(restricted to ASCII where Python's notion of digit / whitespace is
Unicode-aware), so that every definition evaluates by kernel reduction.
-/

namespace Wardstats

/-- The Python exception classes relevant to the embedded code paths.
`indexError` and `keyError` are the subclasses of Python's `LookupError`;
`nameError` stands for `NameError` (including `UnboundLocalError`). -/
inductive PyErr where
  | nameError
  | valueError
  | indexError
  | keyError
deriving DecidableEq, Repr

/-- In Python, `LookupError` has exactly the subclasses `IndexError` and
`KeyError`; `NameError`/`UnboundLocalError` and `ValueError` are not lookup
errors. -/
def PyErr.isLookup : PyErr → Bool
  | .indexError => true
  | .keyError => true
  | _ => false

/-! ## Python string primitives -/

/-- Python whitespace, ASCII part: the characters recognised by
`str.split()` with no argument and by `str.strip()`. -/
def pyIsSpace (c : Char) : Bool :=
  c == ' ' || c == '\t' || c == '\n' || c == '\r' || c == '\x0b' || c == '\x0c'

/-- Does the second list start with the first one?  (`str.startswith`.) -/
def leadMatch : List Char → List Char → Bool
  | [], _ => true
  | _ :: _, [] => false
  | c :: cs, d :: ds => c == d && leadMatch cs ds

/-- Python `s.startswith(t)`. -/
def pyStartsWith (s t : String) : Bool :=
  leadMatch t.data s.data

/-- Python `s.endswith(t)`. -/
def pyEndsWith (s t : String) : Bool :=
  t.data.length ≤ s.data.length
    && (s.data.drop (s.data.length - t.data.length) == t.data)

/-- Python `s.strip()`: remove leading and trailing whitespace. -/
def pyStrip (s : String) : String :=
  String.mk (((s.data.dropWhile pyIsSpace).reverse.dropWhile pyIsSpace).reverse)

/-- ASCII lower-casing of one character (`str.lower` on the month names
that occur here). -/
def lowerChar (c : Char) : Char :=
  if c.val ≥ 65 && c.val ≤ 90 then Char.ofNat (c.toNat + 32) else c

/-- Python `s.lower()` (ASCII). -/
def pyLower (s : String) : String :=
  String.mk (s.data.map lowerChar)

/-- Python `s.isdigit()` (restricted to ASCII digits): nonempty and all
digits. -/
def pyIsDigit (s : String) : Bool :=
  !s.data.isEmpty && s.data.all Char.isDigit

/-- Split a character list at every character satisfying `p`, keeping empty
pieces — the semantics of Python `str.split(sep)` with an explicit
one-character separator `sep`, and the building block for `str.split()`. -/
def genSplit (p : Char → Bool) : List Char → List (List Char)
  | [] => [[]]
  | c :: cs =>
      if p c then [] :: genSplit p cs
      else (c :: (genSplit p cs).headI) :: (genSplit p cs).tail

/-- Python `text.split(" ")`: split at every single space character;
consecutive spaces produce empty pieces. -/
def splitOnSpace (s : String) : List String :=
  (genSplit (fun c => c == ' ') s.data).map (fun t => String.mk t)

/-- Python `text.split()` (no argument): the maximal runs of
non-whitespace characters — equivalently, split at every whitespace
character and drop the empty pieces. -/
def splitWhitespace (s : String) : List String :=
  ((genSplit pyIsSpace s.data).filter (fun t => !t.isEmpty)).map
    (fun t => String.mk t)

/-! ## Header-row detection (`transform_data.py`, `_index_header_row`)

The dataframe handed to `_index_header_row` is modelled as a row-major grid
of cell string forms (the result of `astype(str)`, under which every cell
already is a string).  `df[df.columns[-1]]` is the last entry of each row. -/

/-- `df[df.columns[-1]]`: the last column of the grid, top to bottom. -/
def lastColumn (df : List (List String)) : List String :=
  df.map (fun row => row.getLastD "")

/-- `.str[0].str.isnumeric()` on one cell string: the first character exists
and is a digit.  (`astype(str)` never produces an empty string for a
spreadsheet cell; blanks read as `NaN` and stringify to `"nan"`.) -/
def firstCharIsNumeric (s : String) : Bool :=
  match s.data with
  | [] => false
  | c :: _ => c.isDigit

/-- `_index_header_row`: `np.where(df[col].astype(str).str[0].str.isnumeric())[0][0]`
is the index of the first cell of the last column whose string form starts
with a digit; the header row is that index minus one.  If no such cell
exists, `[0][0]` raises `IndexError`. -/
def index_header_row (df : List (List String)) : Except PyErr Int :=
  match (lastColumn df).findIdx? firstCharIsNumeric with
  | some r => Except.ok ((r : Int) - 1)
  | none => Except.error PyErr.indexError

end Wardstats

namespace Wardstats

/-- C1 (counterexample): on a raw table whose last column is
`["text","2","3"]`, header-row detection does NOT select row index 1: the
first digit-starting cell is at index 1, so the code returns `1 - 1 = 0`. -/
theorem C1_counterexample :
    lastColumn [["h", "text"], ["a", "2"], ["b", "3"]] = ["text", "2", "3"] ∧
    index_header_row [["h", "text"], ["a", "2"], ["b", "3"]] ≠ Except.ok 1 := by
  constructor
  · rfl
  · intro h
    have e : index_header_row [["h", "text"], ["a", "2"], ["b", "3"]]
        = Except.ok 0 := rfl
    rw [e] at h
    exact absurd (Except.ok.inj h) (by decide)

/-- C1 (amended): for any raw table whose last column contains the values
`["text","2","3"]`, header-row detection selects row index 0: the first
cell whose string form starts with a digit is at row index `r = 1`, and the
header row is `r - 1 = 0`. -/
theorem C1_header_row_index_zero (df : List (List String))
    (h : lastColumn df = ["text", "2", "3"]) :
    index_header_row df = Except.ok 0 := by
  unfold index_header_row
  rw [h]
  rfl

/-- C1 witness: a concrete three-row grid whose last column is
`["text","2","3"]`. -/
theorem C1_header_row_index_zero_witness :
    index_header_row [["x", "text"], ["y", "2"], ["z", "3"]] = Except.ok 0 :=
  C1_header_row_index_zero [["x", "text"], ["y", "2"], ["z", "3"]] rfl

end Wardstats

namespace Wardstats

/-! ## Per-file entry point (`transform_data.py`, `process_file`)

`process_file` builds an `ExcelFileProcessor` and writes the staging file
when the filename passes the guard, and only logs a skip message otherwise.
The observable outcome is modelled as an action enum. -/

/-- The two observable outcomes of `process_file`. -/
inductive FileAction where
  | processed
  | skippedWithLog
deriving DecidableEq, Repr

/-- `process_file`: process the file when
`raw_filename.endswith(".xlsx") and not raw_filename.startswith("~")`,
otherwise log `"Skipping ..."` and do nothing.  Nothing in this function
raises. -/
def process_file (raw_filename : String) : FileAction :=
  if pyEndsWith raw_filename ".xlsx" && !(pyStartsWith raw_filename "~") then
    FileAction.processed
  else
    FileAction.skippedWithLog

/-- C7: `process_file` skips a raw filename (logging only, raising nothing,
writing nothing) if and only if the filename does not end in `.xlsx` or
starts with the lock-file marker `~`; otherwise it proceeds to process the
file. -/
theorem C7_skip_rule (raw_filename : String) :
    (process_file raw_filename = FileAction.skippedWithLog ↔
      (¬ pyEndsWith raw_filename ".xlsx" = true ∨ pyStartsWith raw_filename "~" = true)) ∧
    (process_file raw_filename = FileAction.processed ↔
      (pyEndsWith raw_filename ".xlsx" = true ∧ ¬ pyStartsWith raw_filename "~" = true)) := by
  unfold process_file
  cases he : pyEndsWith raw_filename ".xlsx" <;>
    cases hs : pyStartsWith raw_filename "~" <;> simp

/-- C7 witness: a lock file is skipped, a plain spreadsheet is processed. -/
theorem C7_skip_rule_witness :
    process_file "~2024_01_Monthly_Virtual_Ward.xlsx" = FileAction.skippedWithLog ∧
    process_file "2024_01_Monthly_Virtual_Ward.xlsx" = FileAction.processed :=
  ⟨(C7_skip_rule "~2024_01_Monthly_Virtual_Ward.xlsx").1.mpr (Or.inr (by decide)),
   (C7_skip_rule "2024_01_Monthly_Virtual_Ward.xlsx").2.mpr (by decide)⟩

/-! ## Row validation (`transform_data.py`, `drop_rows_with_invalid_icb_code`)

At this point of the pipeline a row has the ICB-code column plus the other
columns, modelled by a type parameter.  `df[mask]` row selection in pandas
is modelled by `boolMask`, which keeps exactly the rows whose mask entry is
`true`, in order. -/

/-- A row at the validation step: its ICB code plus all remaining fields. -/
structure IcbRow (α : Type) where
  icb_code : String
  rest : α
deriving DecidableEq, Repr

/-- pandas boolean-mask row selection `df[mask]`: keep the rows whose mask
entry is `true`, preserving order and values. -/
def boolMask {α : Type} : List Bool → List α → List α
  | true :: ms, x :: xs => x :: boolMask ms xs
  | false :: ms, _ :: xs => boolMask ms xs
  | _, _ => []

/-- `drop_rows_with_invalid_icb_code`: `df[df[ICB_CODE].str.len() > 2]`. -/
def drop_rows_with_invalid_icb_code {α : Type} (df : List (IcbRow α)) :
    List (IcbRow α) :=
  boolMask (df.map (fun r => decide (r.icb_code.length > 2))) df

/-- Selecting by the mask computed from a per-row predicate is `filter`. -/
theorem boolMask_map_eq_filter {α : Type} (p : α → Bool) (xs : List α) :
    boolMask (xs.map p) xs = xs.filter p := by
  induction xs with
  | nil => rfl
  | cons x xs ih =>
      cases hp : p x <;> simp [boolMask, List.filter_cons, hp, ih]

/-- C8: row validation keeps exactly the rows whose region-code field has
string length greater than 2, preserving relative order and all field
values; in particular a table with region codes `["E","ABC","AB"]` retains
only the `"ABC"` row. -/
theorem C8_row_validation :
    (∀ (α : Type) (df : List (IcbRow α)),
      drop_rows_with_invalid_icb_code df
        = df.filter (fun r => decide (r.icb_code.length > 2))) ∧
    drop_rows_with_invalid_icb_code
        [⟨"E", (0 : Nat)⟩, ⟨"ABC", 1⟩, ⟨"AB", 2⟩]
      = [⟨"ABC", 1⟩] := by
  constructor
  · intro α df
    exact boolMask_map_eq_filter _ df
  · rfl

/-! ## Column-label cleanup (`transform_data.py`, `rename_columns`)

`df.columns = [i.split("\n")[0].strip() for i in df.columns]` followed by
`df.rename(columns=config["COLUMN_NAMES"])`.  The static rename table from
`config.yml` is not part of the sources, so it is a parameter: pandas
`rename` maps a label through the table when present and keeps it
otherwise. -/

/-- `i.split("\n")[0].strip()`: the text before the first newline, trimmed
of leading and trailing whitespace. -/
def cleanLabel (s : String) : String :=
  pyStrip (String.mk ((genSplit (fun c => c == '\n') s.data).headI))

/-- pandas `rename(columns=tbl)` on one label: replace it when the table
has an entry for it, keep it otherwise. -/
def applyRename (tbl : List (String × String)) (s : String) : String :=
  match tbl.find? (fun e => e.1 == s) with
  | some e => e.2
  | none => s

/-- `rename_columns`, acting on the list of column labels. -/
def rename_columns (tbl : List (String × String)) (cols : List String) :
    List String :=
  (cols.map cleanLabel).map (applyRename tbl)

/-- C9: label cleanup maps each column label to the text before its first
newline with surrounding whitespace trimmed, and then applies the static
rename table; in particular `"Capacity\n[note 1]"` normalizes to
`"Capacity"`. -/
theorem C9_label_cleanup :
    (∀ (tbl : List (String × String)) (cols : List String),
      rename_columns tbl cols
        = cols.map (fun l => applyRename tbl (cleanLabel l))) ∧
    cleanLabel "Capacity\n[note 1]" = "Capacity" ∧
    (∀ (tbl : List (String × String)),
      tbl.find? (fun e => e.1 == "Capacity") = none →
      rename_columns tbl ["Capacity\n[note 1]"] = ["Capacity"]) := by
  refine ⟨?_, rfl, ?_⟩
  · intro tbl cols
    simp [rename_columns, List.map_map, Function.comp]
  · intro tbl h
    have e : cleanLabel "Capacity\n[note 1]" = "Capacity" := rfl
    simp [rename_columns, applyRename, e, h]

/-- C9 witness: with a rename table that has no entry for `"Capacity"`, the
footnoted label comes out as `"Capacity"` itself. -/
theorem C9_label_cleanup_witness :
    rename_columns [("Virtual ward capacity", "capacity")]
        ["Capacity\n[note 1]"] = ["Capacity"] :=
  C9_label_cleanup.2.2 [("Virtual ward capacity", "capacity")] rfl

end Wardstats

namespace Wardstats

/-! ## Suppression handling (`transform_data.py`, `handle_occupancy_suppressions`)

```
df[SUPPRESSED] = df[OCCUPANCY].astype(str).str[-1] == "*"
sp = df[df[SUPPRESSED]].copy()
nsp = df[~df[SUPPRESSED]].copy()
sp[OCCUPANCY] = 1.0
df = pd.concat([sp, nsp]).reset_index(drop=True)
```

A source occupancy cell is either a number or a string; `astype(str)` of a
number never ends in the character `*`, so the suppression test only fires
on string cells ending in `*`.  A row at this step carries the occupancy
cell plus its remaining fields (a type parameter). -/

/-- A spreadsheet cell value as pandas sees it: numeric, or raw text. -/
inductive CellVal where
  | num (q : ℚ)
  | txt (s : String)
deriving DecidableEq, Repr

/-- `astype(str).str[-1] == "*"` on one cell: the decimal string form of a
number never ends in `*`, and a text cell ends in `*` exactly when its last
character is `*`. -/
def endsInStar : CellVal → Bool
  | .num _ => false
  | .txt s => match s.data.getLast? with
      | some c => c == '*'
      | none => false

/-- A row entering `handle_occupancy_suppressions`: occupancy plus the
remaining fields. -/
structure OccRow (α : Type) where
  occupancy : CellVal
  rest : α
deriving DecidableEq, Repr

/-- A row after the step: occupancy, remaining fields, and the new
`suppressed` flag. -/
structure OccRowS (α : Type) where
  occupancy : CellVal
  rest : α
  suppressed : Bool
deriving DecidableEq, Repr

/-- `handle_occupancy_suppressions`: flag each row by the suppression test,
select the flagged and unflagged rows with boolean masks, overwrite the
occupancy of every flagged row with `1.0`, and concatenate flagged rows
before unflagged ones. -/
def handle_occupancy_suppressions {α : Type} (df : List (OccRow α)) :
    List (OccRowS α) :=
  let flagged := df.map (fun r => OccRowS.mk r.occupancy r.rest (endsInStar r.occupancy))
  let sp := boolMask (flagged.map (fun r => r.suppressed)) flagged
  let nsp := boolMask (flagged.map (fun r => !r.suppressed)) flagged
  (sp.map (fun r => OccRowS.mk (CellVal.num 1) r.rest r.suppressed)) ++ nsp

/-- Structural description of `handle_occupancy_suppressions`: the flagged
rows (occupancy overwritten with `1.0`, flag `true`) in input order,
followed by the unflagged rows (occupancy unchanged, flag `false`) in input
order. -/
theorem handle_occupancy_suppressions_eq {α : Type} (df : List (OccRow α)) :
    handle_occupancy_suppressions df
      = ((df.filter (fun r => endsInStar r.occupancy)).map
            (fun r => OccRowS.mk (CellVal.num 1) r.rest true))
        ++ ((df.filter (fun r => !endsInStar r.occupancy)).map
            (fun r => OccRowS.mk r.occupancy r.rest false)) := by
  simp only [handle_occupancy_suppressions]
  rw [boolMask_map_eq_filter, boolMask_map_eq_filter]
  rw [List.filter_map, List.filter_map, List.map_map]
  have h1 : ∀ r : OccRow α, r ∈ df →
      ((fun r : OccRowS α => r.suppressed) ∘
        (fun r : OccRow α => OccRowS.mk r.occupancy r.rest (endsInStar r.occupancy))) r
      = endsInStar r.occupancy := fun r _ => rfl
  rw [List.filter_congr h1]
  have h2 : ∀ r : OccRow α, r ∈ df →
      ((fun r : OccRowS α => !r.suppressed) ∘
        (fun r : OccRow α => OccRowS.mk r.occupancy r.rest (endsInStar r.occupancy))) r
      = !endsInStar r.occupancy := fun r _ => rfl
  rw [List.filter_congr h2]
  congr 1
  · apply List.map_congr_left
    intro r hr
    have hs : endsInStar r.occupancy = true := (List.mem_filter.mp hr).2
    simp [Function.comp, hs]
  · apply List.map_congr_left
    intro r hr
    have hs : (!endsInStar r.occupancy) = true := (List.mem_filter.mp hr).2
    have hs2 : endsInStar r.occupancy = false := by
      cases hb : endsInStar r.occupancy
      · rfl
      · rw [hb] at hs
        exact absurd hs (by decide)
    simp [hs2]

end Wardstats

namespace Wardstats

/-- A `Bool` whose negation is `true` is `false`. -/
theorem bnot_true {b : Bool} (h : (!b) = true) : b = false := by
  cases b
  · rfl
  · exact absurd h (by decide)

/-- C10: the output of suppression handling contains exactly the input rows
(same count; same field values except the occupancy overwrite and the added
flag), with all suppressed rows before all non-suppressed rows, each group
in its original relative order. -/
theorem C10_suppression_shape :
    ∀ (α : Type) (df : List (OccRow α)),
      handle_occupancy_suppressions df
        = ((df.filter (fun r => endsInStar r.occupancy)).map
              (fun r => OccRowS.mk (CellVal.num 1) r.rest true))
          ++ ((df.filter (fun r => !endsInStar r.occupancy)).map
              (fun r => OccRowS.mk r.occupancy r.rest false))
      ∧ (handle_occupancy_suppressions df).length = df.length := by
  intro α df
  constructor
  · exact handle_occupancy_suppressions_eq df
  · rw [handle_occupancy_suppressions_eq df]
    rw [List.length_append, List.length_map, List.length_map]
    exact (List.length_eq_length_filter_add
      (fun r : OccRow α => endsInStar r.occupancy)).symm

/-- C2: suppression handling marks a row suppressed exactly when the string
form of its occupancy value ends in `*`; in the output every suppressed row
has occupancy `1.0` and flag `true`, every non-suppressed row keeps its
occupancy unchanged with flag `false`; and on source occupancy values
`["95%","100%*"]` the `"100%*"` row comes out flagged with occupancy `1.0`
while the `"95%"` row is unflagged and unchanged. -/
theorem C2_suppression_values :
    (∀ (α : Type) (df : List (OccRow α)),
      (∀ r ∈ handle_occupancy_suppressions df,
        (r.suppressed = true ∧ r.occupancy = CellVal.num 1
          ∧ ∃ r0 ∈ df, endsInStar r0.occupancy = true ∧ r0.rest = r.rest)
        ∨ (r.suppressed = false ∧
            ∃ r0 ∈ df, endsInStar r0.occupancy = false ∧ r0.occupancy = r.occupancy
              ∧ r0.rest = r.rest))
      ∧ (∀ r0 ∈ df, endsInStar r0.occupancy = true →
          OccRowS.mk (CellVal.num 1) r0.rest true ∈ handle_occupancy_suppressions df)
      ∧ (∀ r0 ∈ df, endsInStar r0.occupancy = false →
          OccRowS.mk r0.occupancy r0.rest false ∈ handle_occupancy_suppressions df))
    ∧ handle_occupancy_suppressions
        [OccRow.mk (CellVal.txt "95%") (0 : Nat), OccRow.mk (CellVal.txt "100%*") 1]
      = [OccRowS.mk (CellVal.num 1) 1 true,
         OccRowS.mk (CellVal.txt "95%") 0 false] := by
  constructor
  · intro α df
    refine ⟨?_, ?_, ?_⟩
    · intro r hr
      rw [handle_occupancy_suppressions_eq] at hr
      rcases List.mem_append.mp hr with hl | hr2
      · rcases List.mem_map.mp hl with ⟨r0, hr0, he⟩
        have hf := List.mem_filter.mp hr0
        left
        refine ⟨?_, ?_, r0, hf.1, hf.2, ?_⟩
        · rw [← he]
        · rw [← he]
        · rw [← he]
      · rcases List.mem_map.mp hr2 with ⟨r0, hr0, he⟩
        have hf := List.mem_filter.mp hr0
        right
        refine ⟨?_, r0, hf.1, bnot_true hf.2, ?_, ?_⟩
        · rw [← he]
        · rw [← he]
        · rw [← he]
    · intro r0 h0 hs
      rw [handle_occupancy_suppressions_eq]
      apply List.mem_append.mpr
      left
      exact List.mem_map.mpr ⟨r0, List.mem_filter.mpr ⟨h0, hs⟩, rfl⟩
    · intro r0 h0 hs
      rw [handle_occupancy_suppressions_eq]
      apply List.mem_append.mpr
      right
      refine List.mem_map.mpr ⟨r0, List.mem_filter.mpr ⟨h0, ?_⟩, rfl⟩
      rw [hs]
      rfl
  · rfl

/-- C2 witness: the flagged-and-overwritten `"100%*"` row is in the output
of the concrete two-row table. -/
theorem C2_suppression_values_witness :
    OccRowS.mk (CellVal.num 1) (1 : Nat) true ∈
      handle_occupancy_suppressions
        [OccRow.mk (CellVal.txt "95%") (0 : Nat),
         OccRow.mk (CellVal.txt "100%*") 1] :=
  (C2_suppression_values.1 Nat
      [OccRow.mk (CellVal.txt "95%") (0 : Nat), OccRow.mk (CellVal.txt "100%*") 1]).2.1
    (OccRow.mk (CellVal.txt "100%*") 1) (by simp) rfl

end Wardstats

namespace Wardstats

/-! ## Presentation-layer date filter (`utils.py`, `filter_date`)

```
if date is None:
    date = df[DATE].max()
filtered = df[df[DATE] == date].copy()
if len(filtered) == 0:
    raise ValueError(f"No data available for {date}, max is {df[DATE].max()}")
return filtered
```

A master-table row is its date field plus the remaining fields; dates in
the master CSV compare by equality.  The raised `ValueError` message is
abstracted to the error constructor. -/

/-- A master-table row: the date field plus the remaining fields. -/
structure MasterRow (α : Type) where
  date : String
  rest : α
deriving DecidableEq, Repr

/-- `df[DATE].max()`, used for the `date=None` default. -/
def maxDate {α : Type} (df : List (MasterRow α)) : String :=
  (df.map (fun r => r.date)).foldl max ""

/-- `filter_date`: default a missing date to the maximum date, keep the
rows equal to the requested date, and raise `ValueError` when none match. -/
def filter_date {α : Type} (df : List (MasterRow α)) (date : Option String) :
    Except PyErr (List (MasterRow α)) :=
  let d := date.getD (maxDate df)
  let filtered := df.filter (fun r => r.date == d)
  if filtered.isEmpty then Except.error PyErr.valueError else Except.ok filtered

/-- C6: for every master table and requested date, `filter_date` returns
exactly the rows whose date field equals the requested date, and raises
(`ValueError`) if and only if no row matches; it never returns an empty
result. -/
theorem C6_filter_date_spec :
    ∀ (α : Type) (df : List (MasterRow α)) (d : String),
      (filter_date df (some d) = Except.error PyErr.valueError ↔
        ∀ r ∈ df, r.date ≠ d) ∧
      (∀ l, filter_date df (some d) = Except.ok l →
        l = df.filter (fun r => r.date == d) ∧ l ≠ []) := by
  intro α df d
  have hdef : filter_date df (some d)
      = (if (df.filter (fun r => r.date == d)).isEmpty
          then Except.error PyErr.valueError
          else Except.ok (df.filter (fun r => r.date == d))) := rfl
  have hiff : df.filter (fun r => r.date == d) = [] ↔ ∀ r ∈ df, r.date ≠ d := by
    rw [List.filter_eq_nil_iff]
    constructor
    · intro h r hr hd
      exact (h r hr) (by simp [hd])
    · intro h r hr hd
      exact (h r hr) (eq_of_beq hd)
  by_cases hnil : df.filter (fun r => r.date == d) = []
  · have hempty : (df.filter (fun r => r.date == d)).isEmpty = true := by
      simp [hnil]
    rw [hdef, hempty]
    simp only [if_true]
    constructor
    · exact iff_of_true (by trivial) (hiff.mp hnil)
    · intro l hl
      exact Except.noConfusion hl
  · have hempty : (df.filter (fun r => r.date == d)).isEmpty = false := by
      simp [hnil]
    rw [hdef, hempty]
    simp only [Bool.false_eq_true, if_false]
    constructor
    · constructor
      · intro h
        exact Except.noConfusion h
      · intro h
        exact absurd (hiff.mpr h) hnil
    · intro l hl
      refine ⟨(Except.ok.inj hl).symm, ?_⟩
      intro hl2
      rw [hl2] at hl
      exact hnil (Except.ok.inj hl)
end Wardstats

namespace Wardstats

/-- C6 witness: a one-row master table; the matching date returns the row,
a missing date raises. -/
theorem C6_filter_date_spec_witness :
    filter_date [MasterRow.mk "2024-01-01" (0 : Nat)] (some "2025-06-01")
      = Except.error PyErr.valueError :=
  (C6_filter_date_spec Nat [MasterRow.mk "2024-01-01" (0 : Nat)] "2025-06-01").1.mpr
    (by
      intro r hr
      have : r = MasterRow.mk "2024-01-01" (0 : Nat) := by
        simpa using hr
      rw [this]
      decide)

end Wardstats

namespace Wardstats

/-! ## Combiner (`combine_data.py`, `main`)

```
files = os.listdir(get_data_path(STAGING))
files.sort()  # Ensure files are in date order
dfs = [pd.read_csv(get_data_path(STAGING, file)) for file in files]
combined_df = pd.concat(dfs)
```

The staging directory is modelled as the list of its filenames plus a
contents function mapping a filename to the rows of that file.
`list.sort()` on Python strings sorts ascending in the lexicographic order
on code points, modelled by `pyStrLe`; `pd.concat` stacks the rows in list
order. -/

/-- Lexicographic comparison of two character lists by code point — the
ordering Python uses to compare strings. -/
def lexLe : List Char → List Char → Bool
  | [], _ => true
  | _ :: _, [] => false
  | c :: cs, d :: ds =>
      if c.toNat < d.toNat then true
      else if d.toNat < c.toNat then false
      else lexLe cs ds

/-- Python `a <= b` on strings: lexicographic by code point. -/
def pyStrLe (a b : String) : Bool :=
  lexLe a.data b.data

/-- `lexLe` is total. -/
theorem lexLe_total : ∀ a b : List Char, lexLe a b = true ∨ lexLe b a = true
  | [], _ => Or.inl rfl
  | _ :: _, [] => Or.inr rfl
  | c :: cs, d :: ds => by
      by_cases h1 : c.toNat < d.toNat
      · left
        simp [lexLe, h1]
      · by_cases h2 : d.toNat < c.toNat
        · right
          simp [lexLe, h2]
        · rcases lexLe_total cs ds with h | h
          · left
            simp [lexLe, h1, h2, h]
          · right
            simp [lexLe, h1, h2, h]

/-- `lexLe` is transitive. -/
theorem lexLe_trans : ∀ a b c : List Char,
    lexLe a b = true → lexLe b c = true → lexLe a c = true
  | [], _, _, _, _ => rfl
  | x :: xs, [], _, h1, _ => by simp [lexLe] at h1
  | x :: xs, y :: ys, [], _, h2 => by simp [lexLe] at h2
  | x :: xs, y :: ys, z :: zs, h1, h2 => by
      by_cases hxy : x.toNat < y.toNat
      · by_cases hyz : y.toNat < z.toNat
        · have hxz : x.toNat < z.toNat := by omega
          simp [lexLe, hxz]
        · by_cases hzy : z.toNat < y.toNat
          · simp [lexLe, hyz, hzy] at h2
          · have hxz : x.toNat < z.toNat := by omega
            simp [lexLe, hxz]
      · by_cases hyx : y.toNat < x.toNat
        · simp [lexLe, hxy, hyx] at h1
        · by_cases hyz : y.toNat < z.toNat
          · have hxz : x.toNat < z.toNat := by omega
            simp [lexLe, hxz]
          · by_cases hzy : z.toNat < y.toNat
            · simp [lexLe, hyz, hzy] at h2
            · have hxz : ¬ x.toNat < z.toNat := by omega
              have hzx : ¬ z.toNat < x.toNat := by omega
              simp only [lexLe, hxy, hyx, if_false, if_neg hxy, if_neg hyx] at h1
              simp only [lexLe, if_neg hyz, if_neg hzy] at h2
              simp only [lexLe, if_neg hxz, if_neg hzx]
              exact lexLe_trans xs ys zs h1 h2

instance : IsTotal String (fun a b => pyStrLe a b = true) :=
  ⟨fun a b => lexLe_total a.data b.data⟩

instance : IsTrans String (fun a b => pyStrLe a b = true) :=
  ⟨fun a b c => lexLe_trans a.data b.data c.data⟩

/-- Python `files.sort()`: ascending lexicographic sort.  Python's sort is
stable, and a stable ascending sort is unique as a function, so insertion
sort (stable, structurally recursive, hence evaluable by the kernel) is an
exact model. -/
def sortFiles (files : List String) : List String :=
  List.insertionSort (fun a b => pyStrLe a b = true) files

/-- `combine_data.main`, up to I/O: read every staging file in sorted
filename order and concatenate their rows. -/
def combine_staging_files {α : Type} (files : List String)
    (contents : String → List α) : List α :=
  (sortFiles files).flatMap contents

/-- C5: the Combiner sorts the staging filenames ascending
lexicographically and concatenates the files' rows in exactly that order;
in particular `2023_11.csv`, `2024_01.csv`, `2023_12.csv` contribute their
rows in the chronological order Nov-23, Dec-23, Jan-24. -/
theorem C5_combiner_order :
    ∀ (α : Type) (files : List String) (contents : String → List α),
      combine_staging_files files contents = (sortFiles files).flatMap contents
      ∧ (sortFiles files).Pairwise (fun a b => pyStrLe a b = true)
      ∧ (sortFiles files).Perm files
      ∧ combine_staging_files ["2023_11.csv", "2024_01.csv", "2023_12.csv"] contents
          = contents "2023_11.csv" ++ contents "2023_12.csv" ++ contents "2024_01.csv" := by
  intro α files contents
  refine ⟨rfl, List.sorted_insertionSort _ files,
    List.perm_insertionSort _ files, ?_⟩
  have hs : sortFiles ["2023_11.csv", "2024_01.csv", "2023_12.csv"]
      = ["2023_11.csv", "2023_12.csv", "2024_01.csv"] := by decide
  simp [combine_staging_files, hs, List.flatMap_cons, List.flatMap_nil,
    List.append_assoc]

end Wardstats

namespace Wardstats

/-! ## Filename derivation (`extract_raw_data.py` / `utils.py`)

```
bits = text.split(" ")
for j, bit in enumerate(bits):
    if bit.isdigit():
        year = bit
        break
month = bits[j - 1]
date = datetime.strptime(" ".join([month, year]), "%B %Y")
```

Observations, mirrored in the embedding:

* `text.split(" ")` splits at every single space character (not at general
  whitespace), keeping empty pieces;
* when no token is all-digit, the loop leaves `year` unassigned and the
  `join` raises `UnboundLocalError` (a `NameError`, not a `LookupError`);
* when the first all-digit token is at index 0, Python's `bits[j - 1]` is
  `bits[-1]`, the last token (negative indexing);
* `strptime` with `%B %Y` matches a full English month name
  case-insensitively, then a whitespace run (which absorbs any trailing
  whitespace of the month token), then exactly four digits, and `datetime`
  needs `year >= 1`; any mismatch raises `ValueError`. -/

/-- Remove trailing whitespace characters. -/
def dropTrailingWs (cs : List Char) : List Char :=
  (cs.reverse.dropWhile pyIsSpace).reverse

/-- The full English month names recognised by `strptime`'s `%B`
(lower-cased), with their month numbers. -/
def monthNumber : String → Option Nat
  | "january" => some 1
  | "february" => some 2
  | "march" => some 3
  | "april" => some 4
  | "may" => some 5
  | "june" => some 6
  | "july" => some 7
  | "august" => some 8
  | "september" => some 9
  | "october" => some 10
  | "november" => some 11
  | "december" => some 12
  | _ => none

/-- The month half of `strptime(month + " " + year, "%B %Y")`: `%B` matches
a full month name case-insensitively, and the format's inner space matches
a whitespace run, absorbing trailing whitespace of the month token. -/
def parseMonth (s : String) : Option Nat :=
  monthNumber (pyLower (String.mk (dropTrailingWs s.data)))

/-- The numeric value of a digit string. -/
def digitsToNat (cs : List Char) : Nat :=
  cs.foldl (fun n c => n * 10 + (c.toNat - 48)) 0

/-- The year half of `strptime(month + " " + year, "%B %Y")`: `%Y` matches
exactly four digits and `datetime` requires `year >= 1`. -/
def parseYear (s : String) : Option Nat :=
  if s.data.length = 4 && s.data.all Char.isDigit
      && decide (1 ≤ digitsToNat s.data) then
    some (digitsToNat s.data)
  else none

/-- `extract_date_from_text`, returning the parsed (year, month) pair or
the Python exception class the code raises. -/
def extract_date_from_text (text : String) : Except PyErr (Nat × Nat) :=
  let bits := splitOnSpace text
  match bits.findIdx? pyIsDigit with
  | none => Except.error PyErr.nameError
  | some j =>
      let year := bits.getD j ""
      let month := if j = 0 then bits.getLastD "" else bits.getD (j - 1) ""
      match parseMonth month, parseYear year with
      | some m, some y => Except.ok (y, m)
      | _, _ => Except.error PyErr.valueError

/-- Zero-padded two-digit month, as `strftime`'s `%m` produces. -/
def zeroPad2 (n : Nat) : String :=
  if n < 10 then "0" ++ Nat.repr n else Nat.repr n

/-- `generate_raw_filename`: `date.strftime("%Y_%m") + "_Monthly_Virtual_Ward.xlsx"`
(`%Y` prints the year in decimal, `%m` the zero-padded month). -/
def generate_raw_filename (year month : Nat) : String :=
  Nat.repr year ++ "_" ++ zeroPad2 month ++ "_Monthly_Virtual_Ward.xlsx"

/-- `convert_link_text_to_filename`: extract the date, then build the raw
filename from it. -/
def convert_link_text_to_filename (text : String) : Except PyErr String :=
  Except.map (fun ym => generate_raw_filename ym.1 ym.2)
    (extract_date_from_text text)

end Wardstats

namespace Wardstats

/-- C3 (counterexample): the code splits on the single space character, not
on whitespace.  The anchor text `"January  2024"` (two spaces) splits on
whitespace into `["January","2024"]` — an all-digit token preceded by a
valid month name — but the code sees the empty token between the spaces as
the month, `strptime` fails, and no filename is returned. -/
theorem C3_counterexample :
    splitWhitespace "January  2024" = ["January", "2024"] ∧
    pyIsDigit "2024" = true ∧
    parseMonth "January" = some 1 ∧
    convert_link_text_to_filename "January  2024" = Except.error PyErr.valueError ∧
    convert_link_text_to_filename "January  2024"
      ≠ Except.ok "2024_01_Monthly_Virtual_Ward.xlsx" := by
  refine ⟨by decide, rfl, rfl, rfl, ?_⟩
  intro h
  have e : convert_link_text_to_filename "January  2024"
      = Except.error PyErr.valueError := rfl
  rw [e] at h
  exact Except.noConfusion h

/-- C3 (amended): for every anchor text whose space-separated tokens (in
the sense of Python's `split(" ")`, where consecutive spaces yield empty
tokens) have their first all-digit token at an index `j ≥ 1`, that token a
four-digit year accepted by `strptime` and the token at `j - 1` a valid
English month name, the derivation returns
`<year in decimal>_<zero-padded two-digit month>_Monthly_Virtual_Ward.xlsx`. -/
theorem C3_filename_derivation (text : String) (j y m : Nat)
    (hj : (splitOnSpace text).findIdx? pyIsDigit = some j)
    (hj1 : 1 ≤ j)
    (hy : parseYear ((splitOnSpace text).getD j "") = some y)
    (hm : parseMonth ((splitOnSpace text).getD (j - 1) "") = some m) :
    convert_link_text_to_filename text
      = Except.ok (Nat.repr y ++ "_" ++ zeroPad2 m ++ "_Monthly_Virtual_Ward.xlsx") := by
  have hj0 : ¬ j = 0 := by omega
  simp only [convert_link_text_to_filename, extract_date_from_text, hj, hj0,
    if_false, hy, hm, Except.map, generate_raw_filename]

/-- C3 witness: a realistic anchor text, one space between tokens. -/
theorem C3_filename_derivation_witness :
    convert_link_text_to_filename "Monthly Virtual Ward January 2024"
      = Except.ok "2024_01_Monthly_Virtual_Ward.xlsx" := by
  have h := C3_filename_derivation "Monthly Virtual Ward January 2024" 4 2024 1
    (by decide) (by decide) (by decide) (by decide)
  rw [h]
  rfl

end Wardstats

namespace Wardstats

/-! ## No-digit-token failure (`extract_date_from_text`)

The claim quantifies over texts with no all-digit token after splitting on
whitespace; the code splits on the space character only.  The bridge: an
all-digit space-separated token contains no whitespace at all, so it is
also a whitespace-separated token.  The next lemmas make that precise for
`genSplit`. -/

/-- `Bool` or-elimination. -/
theorem bor_mp {a b : Bool} (h : (a || b) = true) : a = true ∨ b = true := by
  cases a
  · exact Or.inr (by simpa using h)
  · exact Or.inl rfl

/-- `Bool` or-introduction, left. -/
theorem bor_inl {a b : Bool} (h : a = true) : (a || b) = true := by
  rw [h]
  rfl

/-- `Bool` or-introduction, right. -/
theorem bor_inr {a b : Bool} (h : b = true) : (a || b) = true := by
  rw [h]
  simp

/-- `Bool` and-elimination. -/
theorem band_mp {a b : Bool} (h : (a && b) = true) : a = true ∧ b = true := by
  cases a <;> cases b <;> simp_all

/-- A nonempty all-digit character-list piece (`pyIsDigit` seen through
`String.mk`). -/
def isDigitRun (t : List Char) : Bool :=
  !t.isEmpty && t.all Char.isDigit

/-- `genSplit` never returns the empty list of pieces. -/
theorem genSplit_ne_nil (p : Char → Bool) (cs : List Char) :
    genSplit p cs ≠ [] := by
  cases cs with
  | nil => simp [genSplit]
  | cons c cs =>
      simp only [genSplit]
      split <;> simp

/-- A nonempty list is its head consed onto its tail. -/
theorem headI_cons_tail {α : Type} [Inhabited α] (l : List α) (h : l ≠ []) :
    l.headI :: l.tail = l := by
  cases l with
  | nil => exact absurd rfl h
  | cons a as => rfl

/-- If the first piece of the `p`-split contains no `q`-separator, then the
`q`-split has the same first piece, provided every `p`-separator is a
`q`-separator. -/
theorem genSplit_headI_agree (p q : Char → Bool)
    (hpq : ∀ c, p c = true → q c = true) (cs : List Char)
    (hclean : ∀ c ∈ (genSplit p cs).headI, q c = false) :
    (genSplit q cs).headI = (genSplit p cs).headI := by
  induction cs with
  | nil => rfl
  | cons c cs ih =>
      cases hpc : p c with
      | true =>
          have hqc := hpq c hpc
          simp [genSplit, hpc, hqc]
      | false =>
          cases hqc : q c with
          | true =>
              exfalso
              have hc : c ∈ (genSplit p (c :: cs)).headI := by
                simp [genSplit, hpc]
              have hf := hclean c hc
              rw [hqc] at hf
              exact absurd hf (by decide)
          | false =>
              have hclean2 : ∀ x ∈ (genSplit p cs).headI, q x = false := by
                intro x hx
                apply hclean
                simp only [genSplit, hpc, Bool.false_eq_true, if_false,
                  List.headI_cons]
                exact List.mem_cons_of_mem c hx
              simp [genSplit, hpc, hqc, ih hclean2]

/-- Transfer of "some piece is a nonempty digit run" from a finer to a
coarser splitting predicate, provided separators only grow and no digit is
a separator.  Stated together with the same transfer for the non-first
pieces, which the induction needs. -/
theorem genSplit_any_digit (p q : Char → Bool)
    (hpq : ∀ c, p c = true → q c = true)
    (hdq : ∀ c, Char.isDigit c = true → q c = false) (cs : List Char) :
    ((genSplit p cs).any isDigitRun = true →
      (genSplit q cs).any isDigitRun = true) ∧
    ((genSplit p cs).tail.any isDigitRun = true →
      (genSplit q cs).tail.any isDigitRun = true) := by
  induction cs with
  | nil => simp [genSplit, isDigitRun]
  | cons c cs ih =>
      cases hpc : p c with
      | true =>
          have hqc := hpq c hpc
          have ep : genSplit p (c :: cs) = [] :: genSplit p cs := by
            simp [genSplit, hpc]
          have eq2 : genSplit q (c :: cs) = [] :: genSplit q cs := by
            simp [genSplit, hqc]
          rw [ep, eq2]
          constructor
          · intro h
            rw [List.any_cons] at h ⊢
            have h2 : (genSplit p cs).any isDigitRun = true := by
              rcases bor_mp h with hh | ht
              · exact absurd hh (by decide)
              · exact ht
            exact bor_inr (ih.1 h2)
          · intro h
            rw [List.tail_cons] at h ⊢
            exact ih.1 h
      | false =>
          cases hqc : q c with
          | true =>
              have ep : genSplit p (c :: cs)
                  = (c :: (genSplit p cs).headI) :: (genSplit p cs).tail := by
                simp [genSplit, hpc]
              have eq2 : genSplit q (c :: cs) = [] :: genSplit q cs := by
                simp [genSplit, hqc]
              have hcnd : isDigitRun (c :: (genSplit p cs).headI) = false := by
                cases hd : Char.isDigit c with
                | true =>
                    have hf := hdq c hd
                    rw [hqc] at hf
                    exact absurd hf (by decide)
                | false => simp [isDigitRun, List.all_cons, hd]
              rw [ep, eq2]
              constructor
              · intro h
                rw [List.any_cons, hcnd, Bool.false_or] at h
                have h2 := ih.2 h
                rw [List.any_cons]
                apply bor_inr
                rw [← headI_cons_tail (genSplit q cs) (genSplit_ne_nil q cs),
                  List.any_cons]
                exact bor_inr h2
              · intro h
                rw [List.tail_cons] at h ⊢
                have h2 := ih.2 h
                rw [← headI_cons_tail (genSplit q cs) (genSplit_ne_nil q cs),
                  List.any_cons]
                exact bor_inr h2
          | false =>
              have ep : genSplit p (c :: cs)
                  = (c :: (genSplit p cs).headI) :: (genSplit p cs).tail := by
                simp [genSplit, hpc]
              have eq2 : genSplit q (c :: cs)
                  = (c :: (genSplit q cs).headI) :: (genSplit q cs).tail := by
                simp [genSplit, hqc]
              rw [ep, eq2]
              constructor
              · intro h
                rw [List.any_cons] at h ⊢
                rcases bor_mp h with hh | ht
                · have hall : (c :: (genSplit p cs).headI).all Char.isDigit = true :=
                    (band_mp hh).2
                  have hclean : ∀ x ∈ (genSplit p cs).headI, q x = false := by
                    intro x hx
                    exact hdq x
                      (List.all_eq_true.mp hall x (List.mem_cons_of_mem c hx))
                  rw [genSplit_headI_agree p q hpq cs hclean]
                  exact bor_inl hh
                · exact bor_inr (ih.2 ht)
              · intro h
                rw [List.tail_cons] at h ⊢
                exact ih.2 h

/-- If no whitespace-separated token of `text` is all-digit, then no
space-separated token is either. -/
theorem no_digit_token_transfer (text : String)
    (h : ∀ t ∈ splitWhitespace text, pyIsDigit t = false) :
    ∀ t ∈ splitOnSpace text, pyIsDigit t = false := by
  intro t ht
  rcases List.mem_map.mp ht with ⟨u, hu, hut⟩
  cases hd : pyIsDigit t with
  | false => rfl
  | true =>
      exfalso
      have hu2 : isDigitRun u = true := by
        rw [← hut] at hd
        exact hd
      have hany : (genSplit (fun c => c == ' ') text.data).any isDigitRun = true :=
        List.any_eq_true.mpr ⟨u, hu, hu2⟩
      have hpq : ∀ c, (c == ' ') = true → pyIsSpace c = true := by
        intro c hc
        have hce : c = ' ' := eq_of_beq hc
        rw [hce]
        decide
      have hdq : ∀ c, Char.isDigit c = true → pyIsSpace c = false := by
        intro c hc
        cases hs : pyIsSpace c with
        | false => rfl
        | true =>
            exfalso
            simp only [pyIsSpace, Bool.or_eq_true, beq_iff_eq] at hs
            rcases hs with ((((h0 | h0) | h0) | h0) | h0) | h0 <;>
              (subst h0; exact absurd hc (by decide))
      have htrans :=
        (genSplit_any_digit (fun c => c == ' ') pyIsSpace hpq hdq text.data).1 hany
      rcases List.any_eq_true.mp htrans with ⟨v, hv, hv2⟩
      have hvne : (!v.isEmpty) = true := (band_mp hv2).1
      have hmem : String.mk v ∈ splitWhitespace text :=
        List.mem_map.mpr ⟨v, List.mem_filter.mpr ⟨hv, hvne⟩, rfl⟩
      have hfin := h (String.mk v) hmem
      have hdig : pyIsDigit (String.mk v) = true := hv2
      rw [hdig] at hfin
      exact absurd hfin (by decide)

end Wardstats

namespace Wardstats

/-- C4 (counterexample): on the anchor text `"Monthly Virtual Ward statistics"`
— no all-digit token under whitespace splitting — the derivation fails with
an unbound-local-variable error (Python `UnboundLocalError`, a `NameError`):
the loop never assigns `year`, and `NameError` is not a `LookupError`. -/
theorem C4_counterexample :
    splitWhitespace "Monthly Virtual Ward statistics"
      = ["Monthly", "Virtual", "Ward", "statistics"] ∧
    (∀ t ∈ splitWhitespace "Monthly Virtual Ward statistics", pyIsDigit t = false) ∧
    extract_date_from_text "Monthly Virtual Ward statistics"
      = Except.error PyErr.nameError ∧
    PyErr.isLookup PyErr.nameError = false :=
  ⟨by decide, by decide, rfl, rfl⟩

/-- C4 (amended): for every anchor text that, when split on whitespace,
contains no all-digit token, the filename derivation fails by raising a
name error — Python's `UnboundLocalError` on the never-assigned `year`
variable, which is not a lookup error — and does not return a filename;
the condition is not defensively handled. -/
theorem C4_no_digit_name_error (text : String)
    (h : ∀ t ∈ splitWhitespace text, pyIsDigit t = false) :
    extract_date_from_text text = Except.error PyErr.nameError ∧
    PyErr.isLookup PyErr.nameError = false := by
  constructor
  · have h2 : (splitOnSpace text).findIdx? pyIsDigit = none :=
      List.findIdx?_eq_none_iff.mpr (no_digit_token_transfer text h)
    simp only [extract_date_from_text, h2]
  · rfl

/-- C4 witness: a concrete digit-free anchor text. -/
theorem C4_no_digit_name_error_witness :
    extract_date_from_text "Monthly Virtual Ward" = Except.error PyErr.nameError ∧
    PyErr.isLookup PyErr.nameError = false :=
  C4_no_digit_name_error "Monthly Virtual Ward" (by decide)

end Wardstats
